import Mathlib

/-!
Verification development for the Linsenkasten maintenance scripts.

The definitions below are a shallow embedding of the contrast-generation
pipeline of `scripts/generate_contrasts_json.py` and of the bulk
re-embedding loop of `apps/api/scripts/reembed_with_sentence_transformers.py`.

Modelling conventions:
* Python floats are modelled as exact rationals (`ℚ`); `round(x, n)` is
  modelled as round-half-up on exact rationals (`roundTo`).  None of the
  concrete values appearing in the claims sits on a rounding halfway point,
  so this agrees with the decimal values the spec computes.
* The two external collaborators of the scorer — the per-id embedding
  lookup (a network fetch) and the cosine-distance evaluation on the
  fetched vectors — are parameters of the pipeline definitions
  (`embOf : String → Option E` and `dist : E → E → ℚ`), mirroring the
  methods `get_lens_embedding` and `cosine_distance` of the
  `ContrastGenerator` class.  The numeric content of `cosine_distance`
  itself is modelled separately over `ℝ` (`cosine_distance`, `normR`).
* Python exceptions are modelled by `Option`/explicit outcome types.
-/

/-- A "lens" record as consumed by the scorer:
`id`, `name`, `definition`, `related_concepts` (list of tags). -/
structure Lens where
  id : String
  name : String
  definition : String
  related_concepts : List String
deriving DecidableEq

/-- An entry of the existing-relationships input
(`claude_lens_connections_analysis.json` → `connections`). -/
structure Conn where
  source_id : String
  target_id : String
  type : String
deriving DecidableEq

/-- `load_existing_contrasts`: keep only the `type == "contrast"` entries. -/
def load_existing_contrasts (connections : List Conn) : List Conn :=
  connections.filter (fun c => c.type == "contrast")

/-- `covered_ids` built in `get_uncovered_lenses`: every id appearing as
source or target of an existing contrast. -/
def covered_ids (existing : List Conn) : List String :=
  existing.foldr (fun c acc => c.source_id :: c.target_id :: acc) []

/-- `get_uncovered_lenses`: lenses whose id appears in no existing contrast. -/
def get_uncovered_lenses (lenses : List Lens) (existing : List Conn) : List Lens :=
  lenses.filter (fun l => !(covered_ids existing).contains l.id)

/-- Does `sub` occur as a contiguous run inside `s` (lists of characters)? -/
def infixOfChars (sub : List Char) : List Char → Bool
  | [] => sub.isEmpty
  | c :: t => sub.isPrefixOf (c :: t) || infixOfChars sub t

/-- Python substring containment `sub in s`. -/
def containsSub (s sub : String) : Bool :=
  infixOfChars sub.toList s.toList

/-- The fixed table of 15 opposing keyword pairs of
`calculate_dialectic_score`. -/
def dialectic_pairs : List (String × String) :=
  [("centralized", "decentralized"),
   ("control", "freedom"),
   ("stability", "change"),
   ("conservative", "liberal"),
   ("individual", "collective"),
   ("short-term", "long-term"),
   ("reactive", "proactive"),
   ("top-down", "bottom-up"),
   ("rigid", "flexible"),
   ("specialized", "generalized"),
   ("compete", "cooperate"),
   ("open", "closed"),
   ("fast", "slow"),
   ("explicit", "implicit"),
   ("formal", "informal")]

/-- One pair of the table matches two (case-folded) definitions when one
definition contains one member and the other contains the other member,
in either assignment direction. -/
def dialectic_pair_matches (sdef tdef : String) (p : String × String) : Bool :=
  (containsSub sdef p.1 && containsSub tdef p.2) ||
  (containsSub sdef p.2 && containsSub tdef p.1)

/-- `calculate_dialectic_score`: 0.2 per matching pair, accumulated over the
table in order, capped at 1.0. -/
def calculate_dialectic_score (source target : Lens) : ℚ :=
  let sdef := source.definition.toLower
  let tdef := target.definition.toLower
  let score := dialectic_pairs.foldl
    (fun sc p => if dialectic_pair_matches sdef tdef p then sc + 0.2 else sc) 0
  min score 1

/-- Number of matching pairs of the table for two definitions (helper used
to state what `calculate_dialectic_score` computes). -/
def dialectic_match_count (source target : Lens) : ℕ :=
  (dialectic_pairs.filter
    (dialectic_pair_matches source.definition.toLower target.definition.toLower)).length

/-- The case-folded concept set of a lens,
`set(c.lower() for c in lens.get('related_concepts', []))`,
modelled as a duplicate-free list. -/
def lens_concepts (l : Lens) : List String :=
  (l.related_concepts.map String.toLower).dedup

/-- `shared_concepts = source_concepts & target_concepts`. -/
def shared_concepts_of (source target : Lens) : List String :=
  (lens_concepts source).inter (lens_concepts target)

/-- The generic-concept stoplist of `find_contrast_candidates`. -/
def generic_concepts : List String :=
  ["core concepts", "systems thinking", "thinking", "concepts",
   "strategy", "management", "leadership", "organizational"]

/-- `specific_shared = shared_concepts - generic_concepts`. -/
def specific_shared (source target : Lens) : List String :=
  (shared_concepts_of source target).filter (fun c => !(generic_concepts.contains c))

/-- `has_meaningful_shared = len(specific_shared) >= 1 or len(shared_concepts) >= 2`. -/
def has_meaningful_shared (source target : Lens) : Prop :=
  1 ≤ (specific_shared source target).length ∨ 2 ≤ (shared_concepts_of source target).length

instance (source target : Lens) : Decidable (has_meaningful_shared source target) := by
  unfold has_meaningful_shared; infer_instance

/-- The duplicate check of `find_contrast_candidates`: does any existing
contrast already cover the pair, in either direction? -/
def has_existing (existing : List Conn) (sid tid : String) : Bool :=
  existing.any (fun c =>
    (c.source_id == sid && c.target_id == tid) ||
    (c.target_id == sid && c.source_id == tid))

/-- A scored candidate as accumulated by `find_contrast_candidates`. -/
structure Candidate (E : Type) where
  lens : Lens
  distance : ℚ
  dialectic_score : ℚ
  combined_score : ℚ
  shared_concepts : List String
deriving DecidableEq

/-- The body of the candidate loop of `find_contrast_candidates` for one
target lens: skip self, skip already-covered pairs, skip missing embeddings,
then admit the target exactly when the distance lies in [0.65, 0.92] and the
shared concepts are meaningful. -/
def score_candidate {E : Type} (dist : E → E → ℚ) (embOf : String → Option E)
    (existing : List Conn) (source : Lens) (se : E) (target : Lens) :
    Option (Candidate E) :=
  if target.id = source.id then none
  else if has_existing existing source.id target.id then none
  else
    (embOf target.id).bind fun te =>
      if 0.65 ≤ dist se te ∧ dist se te ≤ 0.92 ∧ has_meaningful_shared source target then
        some { lens := target
               distance := dist se te
               dialectic_score := calculate_dialectic_score source target
               combined_score :=
                 dist se te * 0.7 + calculate_dialectic_score source target * 0.3
               shared_concepts := shared_concepts_of source target }
      else none

/-- All candidates admitted by the loop of `find_contrast_candidates`,
in pool order, before sorting and truncation. -/
def admittedCandidates {E : Type} (dist : E → E → ℚ) (embOf : String → Option E)
    (pool : List Lens) (existing : List Conn) (source : Lens) (se : E) :
    List (Candidate E) :=
  pool.filterMap (score_candidate dist embOf existing source se)

/-- `find_contrast_candidates`: empty when the source embedding is absent;
otherwise the admitted candidates sorted by combined score descending and
truncated to `lim`. -/
def find_contrast_candidates {E : Type} (dist : E → E → ℚ) (embOf : String → Option E)
    (pool : List Lens) (existing : List Conn) (source : Lens) (lim : ℕ) :
    List (Candidate E) :=
  match embOf source.id with
  | none => []
  | some se =>
    ((admittedCandidates dist embOf pool existing source se).insertionSort
      (fun a b => b.combined_score ≤ a.combined_score)).take lim

/-- Round-half-up to `d` decimal places on exact rationals
(model of Python `round(x, d)`; no claim value sits on a halfway point). -/
def roundTo (d : ℕ) (x : ℚ) : ℚ :=
  ((round (x * 10 ^ d) : ℤ) : ℚ) / 10 ^ d

/-- The weight mapping of `generate_contrasts`:
`weight = 0.80 + (combined_score - 0.45) * 0.30`, rounded to 2 decimals and
clamped to [0.80, 0.95]. -/
def contrast_weight (combined_score : ℚ) : ℚ :=
  max 0.80 (min 0.95 (roundTo 2 (0.80 + (combined_score - 0.45) * 0.30)))

/-- `generate_insight`: deterministic template substitution. -/
def generate_insight (source target : Lens) (shared : List String) : String :=
  source.name ++ " and " ++ target.name ++
  " represent contrasting perspectives within " ++
  String.intercalate ", " shared ++ ". While " ++ source.name ++
  " focuses on " ++ source.definition.take 100 ++ "..., " ++ target.name ++
  " emphasizes " ++ target.definition.take 100 ++
  "... Together they map complementary approaches to the same domain."

/-- The `metadata` object of a generated contrast record. -/
structure Metadata where
  distance : ℚ
  dialectic_score : ℚ
  combined_score : ℚ
  shared_concepts : List String
  generated_by : String
deriving DecidableEq

/-- A generated contrast record. -/
structure ContrastRec where
  source_id : String
  target_id : String
  weight : ℚ
  type : String
  insight : String
  metadata : Metadata
deriving DecidableEq

/-- Assembly of one contrast record from a chosen best candidate
(lines 264-286 of `generate_contrasts`). -/
def mkContrast {E : Type} (source : Lens) (best : Candidate E) : ContrastRec :=
  { source_id := source.id
    target_id := best.lens.id
    weight := contrast_weight best.combined_score
    type := "contrast"
    insight := generate_insight source best.lens best.shared_concepts
    metadata :=
      { distance := roundTo 3 best.distance
        dialectic_score := roundTo 3 best.dialectic_score
        combined_score := roundTo 3 best.combined_score
        shared_concepts := best.shared_concepts
        generated_by := "generate_contrasts_json.py" } }

/-- The driver's `--limit` truncation: `if limit: uncovered = uncovered[:limit]`
(Python truthiness: `None` and `0` both mean "no truncation"). -/
def apply_run_limit (limit : Option ℕ) (l : List Lens) : List Lens :=
  match limit with
  | none => l
  | some n => if n == 0 then l else l.take n

/-- `generate_contrasts`: iterate the uncovered lenses, keep the best
candidate of each (when any), and accumulate the assembled records. -/
def generate_contrasts {E : Type} (dist : E → E → ℚ) (embOf : String → Option E)
    (lenses : List Lens) (connections : List Conn) (limit : Option ℕ) :
    List ContrastRec :=
  let existing := load_existing_contrasts connections
  let uncovered := apply_run_limit limit (get_uncovered_lenses lenses existing)
  uncovered.filterMap (fun source =>
    match find_contrast_candidates dist embOf lenses existing source 3 with
    | [] => none
    | best :: _ => some (mkContrast source best))

/-! ## Embedding accessor (`get_lens_embedding`, lines 80-102) -/

/-- The raw value of the `embedding` column as delivered by the store:
either a native numeric array or a JSON-encoded string. -/
inductive EmbField where
  | arr (v : List ℚ)
  | jstr (s : String)
deriving DecidableEq

/-- Outcome of the single-row fetch issued by `get_lens_embedding`:
a successful response whose `embedding` field may be present or absent,
or an exception raised during the fetch. -/
inductive FetchOutcome where
  | ok (embedding : Option EmbField)
  | exn
deriving DecidableEq

/-- Python truthiness of the fetched `embedding` value, as tested by
`if response.data and response.data.get('embedding'):`. -/
def embTruthy : EmbField → Bool
  | .arr v => !v.isEmpty
  | .jstr s => !s.isEmpty

/-- `get_lens_embedding`, parameterized by the JSON string decoder
(`json.loads` composed with the numeric-array conversion; `none` models a
raised-and-caught decode error).  Every branch — absent embedding, fetch
exception, decode failure — yields `none`; the function is total, so no
exception ever reaches the caller. -/
def get_lens_embedding (decode : String → Option (List ℚ)) :
    FetchOutcome → Option (List ℚ)
  | .ok (some e) =>
    if embTruthy e then
      match e with
      | .arr v => some v
      | .jstr s => decode s
    else none
  | .ok none => none
  | .exn => none

/-! ## Numeric cosine distance (`cosine_distance`, lines 104-110), over ℝ -/

/-- `np.dot` of two equal-length vectors: the sum of pointwise products. -/
noncomputable def dotR : List ℝ → List ℝ → ℝ
  | x :: xs, y :: ys => x * y + dotR xs ys
  | _, _ => 0

/-- `np.linalg.norm`: the square root of the sum of squares. -/
noncomputable def normR (v : List ℝ) : ℝ :=
  Real.sqrt (dotR v v)

/-- `cosine_distance`: `1 - dot(v1,v2) / (norm(v1) * norm(v2))`. -/
noncomputable def cosine_distance (v1 v2 : List ℝ) : ℝ :=
  1 - dotR v1 v2 / (normR v1 * normR v2)

/-- The argument pairs on which `find_contrast_candidates` evaluates
`cosine_distance` during one call with source embedding `se`: one pair per
pool entry that survives the self-skip, the duplicate-skip and the
missing-embedding skip (lines 162-182; the distance is computed before the
admission band is tested). -/
def distance_eval_pairs {E : Type} (embOf : String → Option E)
    (pool : List Lens) (existing : List Conn) (source : Lens) (se : E) :
    List (E × E) :=
  pool.filterMap (fun target =>
    if target.id = source.id then none
    else if has_existing existing source.id target.id then none
    else
      match embOf target.id with
      | none => none
      | some te => some (se, te))

/-! ## Bulk re-embedding loop (`reembed_lenses`, lines 58-94) -/

/-- One iteration of the re-embedding loop: on success the updated counter
is incremented, on a caught exception the error counter is incremented and
the loop moves on (`ok` abstracts whether generating and writing the
embedding of this lens succeeds). -/
def reembed_step (ok : Lens → Bool) (acc : ℕ × ℕ) (lens : Lens) : ℕ × ℕ :=
  if ok lens then (acc.1 + 1, acc.2) else (acc.1, acc.2 + 1)

/-- The `(updated, errors)` counters after the re-embedding loop has
traversed the whole lens list. -/
def reembed_counts (ok : Lens → Bool) (lenses : List Lens) : ℕ × ℕ :=
  lenses.foldl (reembed_step ok) (0, 0)

/-! ## Concrete scenario inputs used by the claims -/

/-- Entity A of the spec's end-to-end scenario. -/
def lensA : Lens :=
  { id := "A", name := "Lens A", definition := "control",
    related_concepts := ["ai", "control"] }

/-- Entity B of the spec's end-to-end scenario. -/
def lensB : Lens :=
  { id := "B", name := "Lens B", definition := "freedom",
    related_concepts := ["ai", "freedom"] }

/-- Distance oracle of the end-to-end scenario: cosine distance 0.75
between the embeddings of A and B (in both directions). -/
def distAB : Unit → Unit → ℚ := fun _ _ => 0.75

/-- Embedding lookup of the end-to-end scenario: both entities have an
embedding. -/
def embAB : String → Option Unit := fun _ => some ()

/-- A default contrast record (used only to read off an element of a
computed batch in closed statements). -/
def dummyRec : ContrastRec :=
  { source_id := "", target_id := "", weight := 0, type := "", insight := "",
    metadata := { distance := 0, dialectic_score := 0, combined_score := 0,
                  shared_concepts := [], generated_by := "" } }

/-- A lens whose definition is "a centralized system" (spec example). -/
def lensCentral : Lens :=
  { id := "C", name := "Central", definition := "a centralized system",
    related_concepts := [] }

/-- A lens whose definition is "a decentralized network" (spec example). -/
def lensDecentral : Lens :=
  { id := "D", name := "Decentral", definition := "a decentralized network",
    related_concepts := [] }

/-- A lens whose definition hits six pair members on the first side. -/
def lensOpposeL : Lens :=
  { id := "L", name := "Oppose L",
    definition := "centralized control stability conservative individual short-term",
    related_concepts := [] }

/-- A lens whose definition hits the six matching members on the other side. -/
def lensOpposeR : Lens :=
  { id := "R", name := "Oppose R",
    definition := "decentralized freedom change liberal collective long-term",
    related_concepts := [] }

/-- Constant distance oracle 0.8 (claim C2's admitted example). -/
def distW : Unit → Unit → ℚ := fun _ _ => 0.8

/-- Embedding lookup where every entity has an embedding. -/
def embW : String → Option Unit := fun _ => some ()

/-- An existing-relationships input covering the unrelated pair X-Y. -/
def connsW : List Conn :=
  [{ source_id := "X", target_id := "Y", type := "contrast" }]

/-- Source lens of the zero-magnitude-embedding scenario. -/
def lensS : Lens :=
  { id := "S", name := "Lens S", definition := "", related_concepts := [] }

/-- Target lens of the zero-magnitude-embedding scenario. -/
def lensT : Lens :=
  { id := "T", name := "Lens T", definition := "", related_concepts := [] }

/-- Embedding lookup delivering the one-dimensional zero vector for every
entity. -/
noncomputable def embZ : String → Option (List ℝ) := fun _ => some [0]

/-- Per-lens success oracle for the re-embedding loop: the lens with id
"bad" fails, every other lens succeeds. -/
def okW : Lens → Bool := fun l => l.id != "bad"

/-- A lens whose re-embedding update fails under `okW`. -/
def lensBad : Lens :=
  { id := "bad", name := "Bad", definition := "", related_concepts := [] }

/-! ## Helper lemmas -/

/-- The accumulation of the dialectic loop equals 0.2 per matching table
entry. -/
theorem foldl_dialectic (m : String × String → Bool) :
    ∀ (L : List (String × String)) (a : ℚ),
      L.foldl (fun sc p => if m p then sc + 0.2 else sc) a
        = a + ((L.filter m).length : ℚ) * 0.2 := by
  intro L
  induction L with
  | nil => intro a; simp
  | cons p L ih =>
    intro a
    by_cases h : m p
    · simp only [List.foldl_cons, h, if_true, List.filter_cons_of_pos h, ih,
        List.length_cons]
      push_cast
      ring
    · simp [List.foldl_cons, h, ih, List.filter_cons_of_neg h]

/-- `calculate_dialectic_score` as a closed formula over the match count. -/
theorem calculate_dialectic_score_eq (source target : Lens) :
    calculate_dialectic_score source target
      = min ((dialectic_match_count source target : ℚ) * 0.2) 1 := by
  simp only [calculate_dialectic_score, dialectic_match_count]
  rw [foldl_dialectic, zero_add]

/-- The contrast weight always lies in the clamp range. -/
theorem contrast_weight_bounds (s : ℚ) :
    0.80 ≤ contrast_weight s ∧ contrast_weight s ≤ 0.95 := by
  unfold contrast_weight
  constructor
  · exact le_max_left _ _
  · exact max_le (by norm_num) (min_le_left _ _)

/-- The head read via `getD 0` of a nonempty list is a member. -/
theorem getD_zero_mem {α : Type} (d : α) :
    ∀ (l : List α), l ≠ [] → l.getD 0 d ∈ l
  | [], h => absurd rfl h
  | a :: _, _ => by simp [List.getD]

/-- What a successful admission by the candidate-loop body implies. -/
theorem score_candidate_eq_some {E : Type} {dist : E → E → ℚ}
    {embOf : String → Option E} {existing : List Conn} {source : Lens} {se : E}
    {target : Lens} {c : Candidate E}
    (h : score_candidate dist embOf existing source se target = some c) :
    c.lens = target ∧ target.id ≠ source.id
    ∧ has_existing existing source.id target.id = false
    ∧ ∃ te, embOf target.id = some te ∧ c.distance = dist se te
      ∧ 0.65 ≤ c.distance ∧ c.distance ≤ 0.92
      ∧ has_meaningful_shared source target
      ∧ c.dialectic_score = calculate_dialectic_score source target
      ∧ c.combined_score = c.distance * 0.7 + c.dialectic_score * 0.3
      ∧ c.shared_concepts = shared_concepts_of source target := by
  unfold score_candidate at h
  by_cases h1 : target.id = source.id
  · rw [if_pos h1] at h; exact absurd h (by simp)
  rw [if_neg h1] at h
  by_cases h2 : has_existing existing source.id target.id = true
  · rw [if_pos h2] at h; exact absurd h (by simp)
  rw [if_neg h2] at h
  rw [Option.bind_eq_some] at h
  obtain ⟨te, hte, hif⟩ := h
  by_cases h3 : 0.65 ≤ dist se te ∧ dist se te ≤ 0.92
      ∧ has_meaningful_shared source target
  · rw [if_pos h3] at hif
    obtain ⟨hd1, hd2, hd3⟩ := h3
    cases hif
    exact ⟨rfl, h1, by simpa using h2,
      te, hte, rfl, hd1, hd2, hd3, rfl, rfl, rfl⟩
  · rw [if_neg h3] at hif; exact absurd hif (by simp)

/-- Membership in the truncated, sorted candidate list comes from a
successful admission of some pool entry. -/
theorem mem_find_contrast_candidates {E : Type} {dist : E → E → ℚ}
    {embOf : String → Option E} {pool : List Lens} {existing : List Conn}
    {source : Lens} {lim : ℕ} {c : Candidate E}
    (h : c ∈ find_contrast_candidates dist embOf pool existing source lim) :
    ∃ se, embOf source.id = some se
      ∧ ∃ t ∈ pool, score_candidate dist embOf existing source se t = some c := by
  unfold find_contrast_candidates at h
  cases he : embOf source.id with
  | none => rw [he] at h; exact absurd h (by simp)
  | some se =>
    rw [he] at h
    refine ⟨se, rfl, ?_⟩
    have h1 := List.take_subset _ _ h
    have h2 := (List.mem_insertionSort
      (fun a b : Candidate E => b.combined_score ≤ a.combined_score)).mp h1
    simpa [admittedCandidates, List.mem_filterMap] using h2

/-- Every record of a run is the assembly of an admitted best candidate of
some source lens. -/
theorem mem_generate_contrasts {E : Type} {dist : E → E → ℚ}
    {embOf : String → Option E} {lenses : List Lens} {connections : List Conn}
    {limit : Option ℕ} {rec : ContrastRec}
    (h : rec ∈ generate_contrasts dist embOf lenses connections limit) :
    ∃ (source : Lens) (se : E) (best : Candidate E),
      embOf source.id = some se
      ∧ (∃ t ∈ lenses,
          score_candidate dist embOf (load_existing_contrasts connections)
            source se t = some best)
      ∧ rec = mkContrast source best := by
  simp only [generate_contrasts, List.mem_filterMap] at h
  obtain ⟨source, _, hsome⟩ := h
  cases hf : find_contrast_candidates dist embOf lenses
      (load_existing_contrasts connections) source 3 with
  | nil => rw [hf] at hsome; exact absurd hsome (by simp)
  | cons best rest =>
    rw [hf] at hsome
    have hrec : rec = mkContrast source best := (Option.some.inj hsome).symm
    have hbest : best ∈ find_contrast_candidates dist embOf lenses
        (load_existing_contrasts connections) source 3 := by
      rw [hf]; exact List.mem_cons_self best rest
    obtain ⟨se, hse, t, ht, hsc⟩ := mem_find_contrast_candidates hbest
    exact ⟨source, se, best, hse, ⟨t, ht, hsc⟩, hrec⟩

/-- Folding the re-embedding step from any starting counters adds the
counters of a fresh run. -/
theorem reembed_foldl_shift (ok : Lens → Bool) :
    ∀ (l : List Lens) (acc : ℕ × ℕ),
      l.foldl (reembed_step ok) acc
        = (acc.1 + (l.foldl (reembed_step ok) (0, 0)).1,
           acc.2 + (l.foldl (reembed_step ok) (0, 0)).2) := by
  intro l
  induction l with
  | nil => intro acc; simp
  | cons x xs ih =>
    intro acc
    rw [List.foldl_cons, List.foldl_cons, ih (reembed_step ok acc x),
        ih (reembed_step ok (0, 0) x)]
    by_cases h : ok x <;> simp [reembed_step, h, Prod.ext_iff] <;> omega

/-- The two counters of a run add up to the number of processed lenses. -/
theorem reembed_counts_sum (ok : Lens → Bool) :
    ∀ (l : List Lens),
      (reembed_counts ok l).1 + (reembed_counts ok l).2 = l.length := by
  intro l
  induction l with
  | nil => simp [reembed_counts]
  | cons x xs ih =>
    simp only [reembed_counts, List.foldl_cons] at *
    rw [reembed_foldl_shift ok xs (reembed_step ok (0, 0) x)]
    by_cases h : ok x <;> simp [reembed_step, h] at ih ⊢ <;> omega

/-- The dot product of a vector with itself is a sum of squares. -/
theorem dotR_self_nonneg : ∀ (a : List ℝ), 0 ≤ dotR a a := by
  intro a
  induction a with
  | nil => simp [dotR]
  | cons x xs ih =>
    have h : dotR (x :: xs) (x :: xs) = x * x + dotR xs xs := rfl
    rw [h]
    exact add_nonneg (mul_self_nonneg x) ih

/-- `np.dot` is symmetric. -/
theorem dotR_comm : ∀ (a b : List ℝ), dotR a b = dotR b a := by
  intro a
  induction a with
  | nil => intro b; cases b <;> simp [dotR]
  | cons x xs ih =>
    intro b
    cases b with
    | nil => simp [dotR]
    | cons y ys =>
      have h1 : dotR (x :: xs) (y :: ys) = x * y + dotR xs ys := rfl
      have h2 : dotR (y :: ys) (x :: xs) = y * x + dotR ys xs := rfl
      rw [h1, h2, mul_comm, ih ys]

/-- A nonzero norm forces a nonzero self dot product. -/
theorem dotR_self_ne_zero {a : List ℝ} (h : normR a ≠ 0) : dotR a a ≠ 0 := by
  intro h0
  exact h (by simp [normR, h0])

/-! ## Claim theorems -/

set_option maxRecDepth 10000

/-- Claim C1, counterexample: on the spec's end-to-end scenario (entities A
and B as described, distance 0.75, empty existing relationships) a single
run of `generate_contrasts` does not produce exactly one contrast record —
it produces two, because both A and B are uncovered and each run of the
candidate loop selects the other entity. -/
theorem c1_counterexample :
    (generate_contrasts distAB embAB [lensA, lensB] [] none).length = 2
    ∧ (generate_contrasts distAB embAB [lensA, lensB] [] none).length ≠ 1 := by
  have h2 : (generate_contrasts distAB embAB [lensA, lensB] [] none).length = 2 := by
    with_unfolding_all rfl
  exact ⟨h2, by omega⟩

/-- Claim C1, amended: on the spec's end-to-end scenario a single run
produces exactly two contrast records, one sourced at each entity
(A targeting B and B targeting A), and each record carries
dialectic_score 0.2, combined_score 0.585 and weight 0.84. -/
theorem c1_amended :
    (generate_contrasts distAB embAB [lensA, lensB] [] none).length = 2
    ∧ (generate_contrasts distAB embAB [lensA, lensB] [] none).map
        ContrastRec.source_id = ["A", "B"]
    ∧ (generate_contrasts distAB embAB [lensA, lensB] [] none).map
        ContrastRec.target_id = ["B", "A"]
    ∧ (generate_contrasts distAB embAB [lensA, lensB] [] none).map
        (fun r => r.metadata.dialectic_score) = [0.2, 0.2]
    ∧ (generate_contrasts distAB embAB [lensA, lensB] [] none).map
        (fun r => r.metadata.combined_score) = [0.585, 0.585]
    ∧ (generate_contrasts distAB embAB [lensA, lensB] [] none).map
        ContrastRec.weight = [0.84, 0.84] := by
  refine ⟨?_, ?_, ?_, ?_, ?_, ?_⟩ <;> with_unfolding_all rfl

/-- Claim C10: the duplicate-exclusion set is the one loaded at startup and
is not extended during a run, so the run on two mutually-best uncovered
entities emits the same unordered pair twice, once in each direction. -/
theorem c10_mutual_pair :
    (generate_contrasts distAB embAB [lensA, lensB] [] none).map
        (fun r => (r.source_id, r.target_id)) = [("A", "B"), ("B", "A")] := by
  with_unfolding_all rfl

/-- Claim C4: the dialectic keyword score is 0.2 per matching opposing-word
pair, capped at 1.0: it equals `min (count * 0.2) 1`; the definitions
"a centralized system" and "a decentralized network" score exactly 0.2; and
whenever more than 5 pairs match the score is 1.0. -/
theorem c4_dialectic_score :
    (∀ source target : Lens,
        calculate_dialectic_score source target
          = min ((dialectic_match_count source target : ℚ) * 0.2) 1)
    ∧ calculate_dialectic_score lensCentral lensDecentral = 0.2
    ∧ (∀ source target : Lens, 5 < dialectic_match_count source target →
        calculate_dialectic_score source target = 1) := by
  refine ⟨calculate_dialectic_score_eq, ?_, ?_⟩
  · with_unfolding_all rfl
  · intro source target h
    rw [calculate_dialectic_score_eq]
    have h6 : (6 : ℚ) ≤ (dialectic_match_count source target : ℚ) := by
      exact_mod_cast Nat.succ_le_of_lt h
    have h1 : (1 : ℚ) ≤ (dialectic_match_count source target : ℚ) * 0.2 := by
      linarith
    exact min_eq_right h1

/-- Claim C4, witness: the six-pair definitions exceed five matches and the
score caps at 1. -/
theorem c4_witness :
    5 < dialectic_match_count lensOpposeL lensOpposeR
    ∧ calculate_dialectic_score lensOpposeL lensOpposeR = 1 := by
  have hc : dialectic_match_count lensOpposeL lensOpposeR = 6 := by
    with_unfolding_all rfl
  exact ⟨by omega, c4_dialectic_score.2.2 lensOpposeL lensOpposeR (by omega)⟩

/-- Claim C3: the weight mapping sends combined score 0.45 to 0.80, 0.95 to
0.95 and 1.2 to the clamp bound 0.95; it always lands in [0.80, 0.95]; and
so does the weight of every record of every run. -/
theorem c3_weight_mapping :
    contrast_weight 0.45 = 0.80
    ∧ contrast_weight 0.95 = 0.95
    ∧ contrast_weight 1.2 = 0.95
    ∧ (∀ s : ℚ, 0.80 ≤ contrast_weight s ∧ contrast_weight s ≤ 0.95)
    ∧ ∀ (E : Type) (dist : E → E → ℚ) (embOf : String → Option E)
        (lenses : List Lens) (connections : List Conn) (limit : Option ℕ)
        (rec : ContrastRec),
        rec ∈ generate_contrasts dist embOf lenses connections limit →
        0.80 ≤ rec.weight ∧ rec.weight ≤ 0.95 := by
  refine ⟨?_, ?_, ?_, contrast_weight_bounds, ?_⟩
  · with_unfolding_all rfl
  · with_unfolding_all rfl
  · with_unfolding_all rfl
  · intro E dist embOf lenses connections limit rec h
    obtain ⟨source, se, best, _, _, hrec⟩ := mem_generate_contrasts h
    have hw : rec.weight = contrast_weight best.combined_score := by
      rw [hrec]
      rfl
    rw [hw]
    exact contrast_weight_bounds _

/-- Claim C3, witness: the first record of the end-to-end run has its
weight inside [0.80, 0.95]. -/
theorem c3_witness :
    0.80 ≤ ((generate_contrasts distAB embAB [lensA, lensB] [] none).getD
        0 dummyRec).weight
    ∧ ((generate_contrasts distAB embAB [lensA, lensB] [] none).getD
        0 dummyRec).weight ≤ 0.95 := by
  have hlen : (generate_contrasts distAB embAB [lensA, lensB] [] none).length = 2 := by
    with_unfolding_all rfl
  have hne : generate_contrasts distAB embAB [lensA, lensB] [] none ≠ [] := by
    intro h0
    rw [h0] at hlen
    simp at hlen
  exact c3_weight_mapping.2.2.2.2 Unit distAB embAB [lensA, lensB] [] none _
    (getD_zero_mem dummyRec _ hne)

/-- Claim C2: within the candidate loop (target distinct from the source,
pair not already covered, both embeddings present), the target is admitted
if and only if the distance lies in [0.65, 0.92] and at least one
non-generic concept is shared or at least two concepts are shared. -/
theorem c2_admission_iff {E : Type} (dist : E → E → ℚ) (embOf : String → Option E)
    (pool : List Lens) (existing : List Conn) (source target : Lens) (se te : E)
    (_hs : embOf source.id = some se) (ht : embOf target.id = some te)
    (hmem : target ∈ pool) (hne : target.id ≠ source.id)
    (hcov : has_existing existing source.id target.id = false) :
    (∃ c ∈ admittedCandidates dist embOf pool existing source se, c.lens = target)
    ↔ (0.65 ≤ dist se te ∧ dist se te ≤ 0.92
       ∧ (1 ≤ (specific_shared source target).length
          ∨ 2 ≤ (shared_concepts_of source target).length)) := by
  constructor
  · rintro ⟨c, hc, hlens⟩
    simp only [admittedCandidates, List.mem_filterMap] at hc
    obtain ⟨t, _, hsc⟩ := hc
    obtain ⟨hct, _, _, te', hte', hcd, hd1, hd2, hm, _⟩ := score_candidate_eq_some hsc
    have htt : t = target := by rw [← hct, hlens]
    subst htt
    rw [ht] at hte'
    cases Option.some.inj hte'
    exact ⟨hcd ▸ hd1, hcd ▸ hd2, hm⟩
  · rintro ⟨hd1, hd2, hm⟩
    refine ⟨{ lens := target
              distance := dist se te
              dialectic_score := calculate_dialectic_score source target
              combined_score :=
                dist se te * 0.7 + calculate_dialectic_score source target * 0.3
              shared_concepts := shared_concepts_of source target }, ?_, rfl⟩
    simp only [admittedCandidates, List.mem_filterMap]
    refine ⟨target, hmem, ?_⟩
    unfold score_candidate
    rw [if_neg hne, if_neg (by simp [hcov]), ht]
    show (if 0.65 ≤ dist se te ∧ dist se te ≤ 0.92
        ∧ has_meaningful_shared source target then _ else none) = _
    rw [if_pos ⟨hd1, hd2, hm⟩]

/-- Claim C2, witness: the admission criterion instantiated on two concrete
entities at distance 0.8 sharing the single non-generic concept "ai". -/
theorem c2_witness :
    (∃ c ∈ admittedCandidates distW embW [lensA, lensB] [] lensA (),
        c.lens = lensB)
    ↔ (0.65 ≤ distW () () ∧ distW () () ≤ 0.92
       ∧ (1 ≤ (specific_shared lensA lensB).length
          ∨ 2 ≤ (shared_concepts_of lensA lensB).length)) :=
  c2_admission_iff distW embW [lensA, lensB] [] lensA lensB () () rfl rfl
    (by simp) (by decide) rfl

/-- Claim C6: no record of any run pairs an entity with itself, and no
record covers an unordered pair already present, in either direction, among
the `type == "contrast"` entries of the existing-relationships input. -/
theorem c6_no_self_no_duplicate :
    ∀ (E : Type) (dist : E → E → ℚ) (embOf : String → Option E)
      (lenses : List Lens) (connections : List Conn) (limit : Option ℕ)
      (rec : ContrastRec),
      rec ∈ generate_contrasts dist embOf lenses connections limit →
      rec.source_id ≠ rec.target_id
      ∧ ∀ c ∈ load_existing_contrasts connections,
          ¬((c.source_id = rec.source_id ∧ c.target_id = rec.target_id)
            ∨ (c.target_id = rec.source_id ∧ c.source_id = rec.target_id)) := by
  intro E dist embOf lenses connections limit rec h
  obtain ⟨source, se, best, _, ⟨t, _, hsc⟩, hrec⟩ := mem_generate_contrasts h
  obtain ⟨hct, hne, hex, _⟩ := score_candidate_eq_some hsc
  have hsrc : rec.source_id = source.id := by rw [hrec]; rfl
  have htgt : rec.target_id = t.id := by
    rw [hrec]
    show best.lens.id = t.id
    rw [hct]
  constructor
  · rw [hsrc, htgt]
    exact fun hh => hne hh.symm
  · intro c hc hcond
    rw [hsrc, htgt] at hcond
    have hbool : ((c.source_id == source.id && c.target_id == t.id)
        || (c.target_id == source.id && c.source_id == t.id)) = true := by
      rcases hcond with ⟨h1, h2⟩ | ⟨h1, h2⟩
      · simp [h1, h2]
      · simp [h1, h2]
    have hTrue : has_existing (load_existing_contrasts connections)
        source.id t.id = true := by
      unfold has_existing
      rw [List.any_eq_true]
      exact ⟨c, hc, hbool⟩
    rw [hex] at hTrue
    exact Bool.false_ne_true hTrue

/-- Claim C6, witness: the first record of a run against a nonempty
existing-relationships input links two distinct entities. -/
theorem c6_witness :
    ((generate_contrasts distAB embAB [lensA, lensB] connsW none).getD
        0 dummyRec).source_id
      ≠ ((generate_contrasts distAB embAB [lensA, lensB] connsW none).getD
        0 dummyRec).target_id := by
  have hlen : (generate_contrasts distAB embAB [lensA, lensB] connsW none).length
      = 2 := by
    with_unfolding_all rfl
  have hne : generate_contrasts distAB embAB [lensA, lensB] connsW none ≠ [] := by
    intro h0
    rw [h0] at hlen
    simp at hlen
  exact (c6_no_self_no_duplicate Unit distAB embAB [lensA, lensB] connsW none _
    (getD_zero_mem dummyRec _ hne)).1

/-- Claim C5: the embedding accessor is a total function into an optional
vector — it returns none on a fetch exception, on an absent embedding and
on a decode failure, and any vector it returns is the fetched embedding,
either delivered natively or obtained by decoding the JSON-string form;
no exception reaches the caller on any fetch outcome. -/
theorem c5_embedding_accessor :
    ∀ decode : String → Option (List ℚ),
      get_lens_embedding decode .exn = none
      ∧ get_lens_embedding decode (.ok none) = none
      ∧ (∀ s, decode s = none →
          get_lens_embedding decode (.ok (some (.jstr s))) = none)
      ∧ ∀ fetch, get_lens_embedding decode fetch = none
          ∨ ∃ v, get_lens_embedding decode fetch = some v
              ∧ (fetch = .ok (some (.arr v))
                 ∨ ∃ s, fetch = .ok (some (.jstr s)) ∧ decode s = some v) := by
  intro decode
  refine ⟨rfl, rfl, ?_, ?_⟩
  · intro s hd
    show (if embTruthy (.jstr s) then decode s else none) = none
    split
    · exact hd
    · rfl
  · intro fetch
    cases fetch with
    | exn => exact Or.inl rfl
    | ok emb =>
      cases emb with
      | none => exact Or.inl rfl
      | some e =>
        cases e with
        | arr v =>
          by_cases h : embTruthy (.arr v) = true
          · refine Or.inr ⟨v, ?_, Or.inl rfl⟩
            show (if embTruthy (.arr v) then some v else none) = some v
            rw [if_pos h]
          · refine Or.inl ?_
            show (if embTruthy (.arr v) then some v else none) = none
            rw [if_neg h]
        | jstr s =>
          cases hd : decode s with
          | none =>
            refine Or.inl ?_
            show (if embTruthy (.jstr s) then decode s else none) = none
            split
            · exact hd
            · rfl
          | some v =>
            by_cases h : embTruthy (.jstr s) = true
            · refine Or.inr ⟨v, ?_, Or.inr ⟨s, rfl, hd⟩⟩
              show (if embTruthy (.jstr s) then decode s else none) = some v
              rw [if_pos h]
              exact hd
            · refine Or.inl ?_
              show (if embTruthy (.jstr s) then decode s else none) = none
              rw [if_neg h]

/-- Claim C5, witness: a failing decoder yields none on the string form. -/
theorem c5_witness :
    get_lens_embedding (fun _ => none) (.ok (some (.jstr "[oops"))) = none :=
  (c5_embedding_accessor (fun _ => none)).2.2.1 "[oops" rfl

/-- Claim C7: cosine distance of a vector of nonzero norm with itself is
exactly 0, and cosine distance is symmetric for equal-length vectors of
nonzero norm. -/
theorem c7_cosine_self_and_symm :
    (∀ a : List ℝ, normR a ≠ 0 → cosine_distance a a = 0)
    ∧ ∀ a b : List ℝ, a.length = b.length → normR a ≠ 0 → normR b ≠ 0 →
        cosine_distance a b = cosine_distance b a := by
  constructor
  · intro a h
    have hs : 0 ≤ dotR a a := dotR_self_nonneg a
    have hne : dotR a a ≠ 0 := dotR_self_ne_zero h
    unfold cosine_distance normR
    rw [Real.mul_self_sqrt hs, div_self hne]
    ring
  · intro a b _ _ _
    unfold cosine_distance
    rw [dotR_comm, mul_comm]

/-- Claim C7, witness: both parts evaluated at the unit vectors [1,0] and
[0,1]. -/
theorem c7_witness :
    cosine_distance [(1 : ℝ), 0] [(1 : ℝ), 0] = 0
    ∧ cosine_distance [(1 : ℝ), 0] [(0 : ℝ), 1]
      = cosine_distance [(0 : ℝ), 1] [(1 : ℝ), 0] := by
  have hd1 : dotR [(1 : ℝ), 0] [(1 : ℝ), 0] = 1 := by
    show (1 : ℝ) * 1 + (0 * 0 + 0) = 1
    ring
  have hd2 : dotR [(0 : ℝ), 1] [(0 : ℝ), 1] = 1 := by
    show (0 : ℝ) * 0 + (1 * 1 + 0) = 1
    ring
  have h1 : normR [(1 : ℝ), 0] ≠ 0 := by
    unfold normR
    rw [hd1, Real.sqrt_one]
    norm_num
  have h2 : normR [(0 : ℝ), 1] ≠ 0 := by
    unfold normR
    rw [hd2, Real.sqrt_one]
    norm_num
  exact ⟨c7_cosine_self_and_symm.1 _ h1,
    c7_cosine_self_and_symm.2 _ _ rfl h1 h2⟩

/-- The distance-evaluation pairs of the zero-embedding scenario. -/
theorem eval_pairs_zero_scenario :
    distance_eval_pairs embZ [lensS, lensT] [] lensS [(0 : ℝ)]
      = [([(0 : ℝ)], [(0 : ℝ)])] := rfl

/-- Claim C8, counterexample: the distance computation is reached on a pair
whose first vector has zero magnitude — the code checks only that both
embeddings are present, not that they have nonzero norm, so the claimed
precondition does not hold on this input. -/
theorem c8_counterexample :
    ([(0 : ℝ)], [(0 : ℝ)]) ∈ distance_eval_pairs embZ [lensS, lensT] [] lensS [(0 : ℝ)]
    ∧ normR [(0 : ℝ)] = 0 := by
  constructor
  · rw [eval_pairs_zero_scenario]
    exact List.mem_singleton.mpr rfl
  · show Real.sqrt ((0 : ℝ) * 0 + 0) = 0
    rw [mul_zero, add_zero, Real.sqrt_zero]

/-- Claim C8, amended: every pair on which the distance is evaluated is
non-null — the first component is the fetched source embedding and the
second a successfully fetched embedding of a distinct pool entity — but no
nonzero-magnitude precondition is established before the division. -/
theorem c8_eval_pairs_non_null :
    ∀ (E : Type) (embOf : String → Option E) (pool : List Lens)
      (existing : List Conn) (source : Lens) (se : E) (p : E × E),
      p ∈ distance_eval_pairs embOf pool existing source se →
      p.1 = se ∧ ∃ t ∈ pool, t.id ≠ source.id ∧ embOf t.id = some p.2 := by
  intro E embOf pool existing source se p hp
  simp only [distance_eval_pairs, List.mem_filterMap] at hp
  obtain ⟨t, ht, hsome⟩ := hp
  by_cases h1 : t.id = source.id
  · rw [if_pos h1] at hsome
    exact absurd hsome (by simp)
  rw [if_neg h1] at hsome
  by_cases h2 : has_existing existing source.id t.id = true
  · rw [if_pos h2] at hsome
    exact absurd hsome (by simp)
  rw [if_neg h2] at hsome
  cases hte : embOf t.id with
  | none => rw [hte] at hsome; exact absurd hsome (by simp)
  | some te =>
    rw [hte] at hsome
    cases Option.some.inj hsome
    exact ⟨rfl, t, ht, h1, hte⟩

/-- Claim C8, witness: the non-null guarantee applied to the zero-embedding
scenario. -/
theorem c8_witness :
    (([(0 : ℝ)], [(0 : ℝ)]) : List ℝ × List ℝ).1 = [(0 : ℝ)]
    ∧ ∃ t ∈ [lensS, lensT], t.id ≠ lensS.id ∧ embZ t.id = some [(0 : ℝ)] :=
  c8_eval_pairs_non_null (List ℝ) embZ [lensS, lensT] [] lensS [(0 : ℝ)] _
    (by rw [eval_pairs_zero_scenario]; exact List.mem_singleton.mpr rfl)

/-- Claim C9: the re-embedding loop recovers per-entity failures locally:
the updated and error counters always sum to the number of processed
lenses, and a failing lens adds one to the error counter while the rest of
the list is processed exactly as it would be on its own. -/
theorem c9_reembed_recovery :
    (∀ (ok : Lens → Bool) (lenses : List Lens),
      (reembed_counts ok lenses).1 + (reembed_counts ok lenses).2
        = lenses.length)
    ∧ ∀ (ok : Lens → Bool) (x : Lens) (xs : List Lens), ok x = false →
        reembed_counts ok (x :: xs)
          = ((reembed_counts ok xs).1, (reembed_counts ok xs).2 + 1) := by
  constructor
  · exact reembed_counts_sum
  · intro ok x xs h
    show List.foldl (reembed_step ok) (reembed_step ok (0, 0) x) xs = _
    rw [reembed_foldl_shift ok xs (reembed_step ok (0, 0) x)]
    simp [reembed_step, h, reembed_counts, Nat.add_comm]

/-- Claim C9, witness: a failing first lens is counted as one error and the
remaining lens is processed normally. -/
theorem c9_witness :
    reembed_counts okW [lensBad, lensA]
      = ((reembed_counts okW [lensA]).1, (reembed_counts okW [lensA]).2 + 1) :=
  c9_reembed_recovery.2 okW lensBad [lensA] rfl
